import Mathlib

/-!
Shallow embedding of the quickwit-splits4java core (Rust sources under
`src/rust/src/`) and proofs of the specification's testable properties.

Byte strings are modelled as `List Nat` (each byte `< 256` where it matters),
machine integers as `Nat`/`Int` with explicit bounds, fallible Rust functions
as `Except SplitsError` values, and functions whose arithmetic can overflow
(panicking in debug builds) as `RustOutcome` values with an explicit
`panicked` constructor.
-/

namespace QSplit

/-- Error taxonomy, translated from `error.rs` (`SplitsError`).  The payloads
of `Io`/`Tantivy` are reduced to their message strings. -/
inductive SplitsError where
  | Io (msg : String)
  | Tantivy (msg : String)
  | Serialization (msg : String)
  | InvalidSplit (msg : String)
  | FieldError (msg : String)
  | InvalidOperation (msg : String)
  | Jni (msg : String)
deriving DecidableEq

/-- Outcome of running a Rust function whose arithmetic may panic in debug
builds (integer overflow/underflow checks). -/
inductive RustOutcome (α : Type) where
  | ok (a : α)
  | err (e : SplitsError)
  | panicked (msg : String)
deriving DecidableEq

/-- Sequencing of Rust outcomes: errors and panics propagate. -/
def RustOutcome.bind {α β : Type} : RustOutcome α → (α → RustOutcome β) → RustOutcome β
  | .ok a, f => f a
  | .err e, _ => .err e
  | .panicked m, _ => .panicked m

/-- Byte strings: each element models a `u8` value. -/
abbrev Bytes := List Nat

def U32_MOD : Nat := 4294967296

def U64_MOD : Nat := 18446744073709551616

/-- Little-endian encoding of `n` into `k` bytes (Rust `to_le_bytes`,
truncating to the machine width like the cast does). -/
def toLE : Nat → Nat → Bytes
  | 0, _ => []
  | k + 1, n => n % 256 :: toLE k (n / 256)

/-- Little-endian decoding of a byte string (Rust `from_le_bytes`). -/
def fromLE : Bytes → Nat
  | [] => 0
  | b :: bs => b + 256 * fromLE bs

/-- Reads exactly `k` bytes from the front of a byte string (the slice-level
view of Rust `read_exact`: fails when fewer than `k` bytes remain). -/
def pBytesN (k : Nat) (bs : Bytes) : Option (Bytes × Bytes) :=
  if k ≤ bs.length then some (bs.take k, bs.drop k) else none

/-- Reads a `k`-byte little-endian unsigned integer from the front. -/
def pU (k : Nat) (bs : Bytes) : Option (Nat × Bytes) :=
  match pBytesN k bs with
  | some (xs, r) => some (fromLE xs, r)
  | none => none

/-- bincode v1 encoding of a byte string field: `u64` length prefix followed
by the raw bytes. -/
def encBytes (s : Bytes) : Bytes := toLE 8 s.length ++ s

/-- Parses a length-prefixed byte string. -/
def pLenBytes (bs : Bytes) : Option (Bytes × Bytes) :=
  match pU 8 bs with
  | some (n, r) => pBytesN n r
  | none => none

/-- bincode v1 encoding of one map entry (key string then value string). -/
def encPair (kv : Bytes × Bytes) : Bytes := encBytes kv.1 ++ encBytes kv.2

/-- bincode v1 encoding of a string map: `u64` entry count followed by the
entries in iteration order. -/
def encMap (l : List (Bytes × Bytes)) : Bytes :=
  toLE 8 l.length ++ (l.map encPair).flatten

/-- Parses `n` key/value string pairs. -/
def pPairs : Nat → Bytes → Option (List (Bytes × Bytes) × Bytes)
  | 0, bs => some ([], bs)
  | n + 1, bs =>
    match pLenBytes bs with
    | none => none
    | some (k, r1) =>
      match pLenBytes r1 with
      | none => none
      | some (v, r2) =>
        match pPairs n r2 with
        | none => none
        | some (l, r) => some ((k, v) :: l, r)

/-- Parses a length-prefixed string map. -/
def pMap (bs : Bytes) : Option (List (Bytes × Bytes) × Bytes) :=
  match pU 8 bs with
  | some (n, r) => pPairs n r
  | none => none

/-- The hotcache sidecar structure of `hotcache.rs` (`HotcacheInfo`).  The
Rust `String` fields are modelled as their UTF-8 byte strings and the
`HashMap<String, String>` as its entry list in iteration order. -/
structure HotcacheInfo where
  split_id : Bytes
  num_docs : Nat
  size_bytes : Nat
  byte_range_start : Nat
  byte_range_end : Nat
  metadata : List (Bytes × Bytes)
deriving DecidableEq

/-- `HotcacheInfo::new` from `hotcache.rs`. -/
def HotcacheInfo.new (split_id : Bytes) (num_docs : Nat) (size_bytes : Nat) : HotcacheInfo :=
  { split_id := split_id
    num_docs := num_docs
    size_bytes := size_bytes
    byte_range_start := 0
    byte_range_end := 0
    metadata := [] }

/-- `create_hotcache` from `hotcache.rs`. -/
def create_hotcache (split_id : Bytes) (num_docs : Nat) (size_bytes : Nat) : HotcacheInfo :=
  HotcacheInfo.new split_id num_docs size_bytes

/-- `HotcacheInfo::to_bytes` from `hotcache.rs`: bincode v1 serialization of
the fields in declaration order (fixed-width little-endian integers,
`u64`-length-prefixed strings and maps). -/
def HotcacheInfo.to_bytes (h : HotcacheInfo) : Bytes :=
  encBytes h.split_id ++ (toLE 4 h.num_docs ++ (toLE 8 h.size_bytes ++
    (toLE 8 h.byte_range_start ++ (toLE 8 h.byte_range_end ++ encMap h.metadata))))

/-- `HotcacheInfo::from_bytes` from `hotcache.rs`: bincode v1
deserialization of the fields in declaration order (trailing bytes are
ignored, as `bincode::deserialize` does). -/
def HotcacheInfo.from_bytes (bs : Bytes) : Option HotcacheInfo :=
  match pLenBytes bs with
  | none => none
  | some (sid, r1) =>
    match pU 4 r1 with
    | none => none
    | some (nd, r2) =>
      match pU 8 r2 with
      | none => none
      | some (sz, r3) =>
        match pU 8 r3 with
        | none => none
        | some (brs, r4) =>
          match pU 8 r4 with
          | none => none
          | some (bre, r5) =>
            match pMap r5 with
            | none => none
            | some (md, _) =>
              some { split_id := sid, num_docs := nd, size_bytes := sz,
                     byte_range_start := brs, byte_range_end := bre, metadata := md }

/-- A `HotcacheInfo` value representable by the Rust struct: every numeric
field fits its machine width and every string length fits a `u64`. -/
def HotcacheInfo.wf (h : HotcacheInfo) : Prop :=
  h.split_id.length < 256 ^ 8 ∧ h.num_docs < 256 ^ 4 ∧ h.size_bytes < 256 ^ 8 ∧
  h.byte_range_start < 256 ^ 8 ∧ h.byte_range_end < 256 ^ 8 ∧
  h.metadata.length < 256 ^ 8 ∧
  ∀ kv ∈ h.metadata, kv.1.length < 256 ^ 8 ∧ kv.2.length < 256 ^ 8

instance (h : HotcacheInfo) : Decidable h.wf := by
  unfold HotcacheInfo.wf
  exact inferInstance

/-- Rust `str::ends_with`. -/
def endsWithStr (s pat : String) : Bool := pat.data.isSuffixOf s.data

/-- A directory listing: file name → file contents, in `read_dir` order. -/
abbrev DirListing := List (String × Bytes)

/-- Association lookup of a file's contents in a directory listing. -/
def lookupDir (d : DirListing) (name : String) : Option Bytes :=
  (d.find? (fun e => e.1 == name)).map (fun e => e.2)

/-- Rust `read_exact` after seeking to `pos`: returns `len` bytes starting
at `pos`, or fails when the file holds fewer. -/
def readExactAt (contents : Bytes) (pos len : Nat) : Option Bytes :=
  if pos + len ≤ contents.length then some ((contents.drop pos).take len) else none

/-- `find_store_file` from `split_reader.rs`, combined with opening the
returned path: the contents of the first directory entry whose name ends in
`.store`. -/
def find_store_file (entries : DirListing) : Except SplitsError Bytes :=
  match entries.find? (fun e => endsWithStr e.1 ".store") with
  | some e => .ok e.2
  | none => .error (.InvalidSplit "No store file found in split directory")

/-- `find_file_with_extension` from `split_reader.rs`, combined with opening
the returned path. -/
def find_file_with_extension (entries : DirListing) (ext : String) : Except SplitsError Bytes :=
  match entries.find? (fun e => endsWithStr e.1 (String.append "." ext)) with
  | some e => .ok e.2
  | none =>
    .error (.InvalidSplit (String.append "No "
      (String.append ext " file found in split directory")))

/-- `read_hotcache_from_footer` from `split_reader.rs`: reads the last 8
bytes as a little-endian `u64` size `N`, validates `8 <= N <= file_size`,
then reads the `N - 8` payload bytes that precede the trailer. -/
def read_hotcache_from_footer (contents : Bytes) : Except SplitsError Bytes :=
  let file_size := contents.length
  if file_size < 8 then
    .error (.InvalidSplit "Store file too small to contain hotcache footer")
  else
    match readExactAt contents (file_size - 8) 8 with
    | none => .error (.Io "failed to fill whole buffer")
    | some size_bytes =>
      let hotcache_size := fromLE size_bytes
      if file_size < hotcache_size ∨ hotcache_size < 8 then
        .error (.InvalidSplit "Invalid hotcache size in footer")
      else
        match readExactAt contents (file_size - hotcache_size) (hotcache_size - 8) with
        | none => .error (.Io "failed to fill whole buffer")
        | some hotcache_data => .ok hotcache_data

/-- Replaces the contents of the named file in a directory listing. -/
def updateDir (d : DirListing) (name : String) (contents : Bytes) : DirListing :=
  d.map (fun e => if e.1 == name then (e.1, contents) else e)

/-- `embed_hotcache` from `split_generator.rs`: serializes the hotcache and
appends the raw serialized bytes to the first `.store` file of the output
directory, returning the updated directory and
`(hotcache_start, hotcache_end)`.  Note that no 8-byte footer-size trailer
is appended after the payload. -/
def embed_hotcache (dir : DirListing) (hotcache : HotcacheInfo) :
    Except SplitsError (DirListing × Nat × Nat) :=
  let hotcache_data := hotcache.to_bytes
  match dir.find? (fun e => endsWithStr e.1 ".store") with
  | none => .error (.InvalidSplit "No store file found to embed hotcache")
  | some e =>
    let hotcache_start := e.2.length
    .ok (updateDir dir e.1 (e.2 ++ hotcache_data), hotcache_start,
         hotcache_start + hotcache_data.length)

/-- A byte range; `stop` models the Rust/spec field `end` (a Lean keyword).
Invariant in the spec: `start <= end`. -/
structure ByteRange where
  start : Nat
  stop : Nat
deriving DecidableEq

/-- `ByteRange::size` from the spec: `end - start`. -/
def ByteRange.size (r : ByteRange) : Nat := r.stop - r.start

/-- Per-field metadata of the reader-side hotcache (spec §3). -/
structure FieldMetadata where
  posting_range : Option ByteRange
  fast_field_range : Option ByteRange
deriving DecidableEq

/-- Modelled from the spec: the reader-side `Hotcache` type used by
`split_reader.rs` and `create_empty_split` is not present under `src/`
(only `HotcacheInfo` is); its fields follow spec §3:  `split_id`,
`num_docs`, `size_bytes`, `byte_range`, `metadata`, `schema_hash` and
`field_metadata`. -/
structure Hotcache where
  split_id : Bytes
  num_docs : Nat
  size_bytes : Nat
  byte_range : ByteRange
  metadata : List (Bytes × Bytes)
  schema_hash : Nat
  field_metadata : List (Bytes × FieldMetadata)
deriving DecidableEq

/-- Encoding of an optional byte range: presence tag then the two offsets. -/
def encOptRange : Option ByteRange → Bytes
  | none => [0]
  | some r => 1 :: (toLE 8 r.start ++ toLE 8 r.stop)

/-- Parses an optional byte range. -/
def pOptRange : Bytes → Option (Option ByteRange × Bytes)
  | 0 :: r => some (none, r)
  | 1 :: r =>
    (match pU 8 r with
     | none => none
     | some (s, r1) =>
       match pU 8 r1 with
       | none => none
       | some (e, r2) => some (some { start := s, stop := e }, r2))
  | _ => none

/-- Encoding of one field-metadata entry: field name then the two optional
ranges. -/
def encFieldEntry (kv : Bytes × FieldMetadata) : Bytes :=
  encBytes kv.1 ++ (encOptRange kv.2.posting_range ++ encOptRange kv.2.fast_field_range)

/-- Encoding of the field-metadata map: `u64` entry count then the entries. -/
def encFieldMap (l : List (Bytes × FieldMetadata)) : Bytes :=
  toLE 8 l.length ++ (l.map encFieldEntry).flatten

/-- Parses `n` field-metadata entries. -/
def pFieldPairs : Nat → Bytes → Option (List (Bytes × FieldMetadata) × Bytes)
  | 0, bs => some ([], bs)
  | n + 1, bs =>
    match pLenBytes bs with
    | none => none
    | some (k, r1) =>
      match pOptRange r1 with
      | none => none
      | some (pr, r2) =>
        match pOptRange r2 with
        | none => none
        | some (fr, r3) =>
          match pFieldPairs n r3 with
          | none => none
          | some (l, r) =>
            some ((k, { posting_range := pr, fast_field_range := fr }) :: l, r)

/-- Parses the field-metadata map. -/
def pFieldMap (bs : Bytes) : Option (List (Bytes × FieldMetadata) × Bytes) :=
  match pU 8 bs with
  | some (n, r) => pFieldPairs n r
  | none => none

/-- Modelled from the spec: `Hotcache::serialize` (absent from `src/`): a
deterministic length-prefixed binary encoding of the fields in spec §3
order. -/
def Hotcache.serialize (h : Hotcache) : Bytes :=
  encBytes h.split_id ++ (toLE 4 h.num_docs ++ (toLE 8 h.size_bytes ++
    (toLE 8 h.byte_range.start ++ (toLE 8 h.byte_range.stop ++
    (encMap h.metadata ++ (toLE 8 h.schema_hash ++ encFieldMap h.field_metadata))))))

/-- Modelled from the spec: `Hotcache::deserialize` (absent from `src/`);
a malformed payload fails with `Serialization`. -/
def Hotcache.deserialize (bs : Bytes) : Except SplitsError Hotcache :=
  match pLenBytes bs with
  | none => .error (.Serialization "Failed to deserialize hotcache")
  | some (sid, r1) =>
    match pU 4 r1 with
    | none => .error (.Serialization "Failed to deserialize hotcache")
    | some (nd, r2) =>
      match pU 8 r2 with
      | none => .error (.Serialization "Failed to deserialize hotcache")
      | some (sz, r3) =>
        match pU 8 r3 with
        | none => .error (.Serialization "Failed to deserialize hotcache")
        | some (brs, r4) =>
          match pU 8 r4 with
          | none => .error (.Serialization "Failed to deserialize hotcache")
          | some (bre, r5) =>
            match pMap r5 with
            | none => .error (.Serialization "Failed to deserialize hotcache")
            | some (md, r6) =>
              match pU 8 r6 with
              | none => .error (.Serialization "Failed to deserialize hotcache")
              | some (sh, r7) =>
                match pFieldMap r7 with
                | none => .error (.Serialization "Failed to deserialize hotcache")
                | some (fm, _) =>
                  .ok { split_id := sid, num_docs := nd, size_bytes := sz,
                        byte_range := { start := brs, stop := bre },
                        metadata := md, schema_hash := sh, field_metadata := fm }

/-- Modelled from the spec: `Hotcache::empty(schema)` (absent from `src/`):
an empty hotcache for a schema, carrying only the schema hash. -/
def Hotcache.empty (schema_hash : Nat) : Hotcache :=
  { split_id := [], num_docs := 0, size_bytes := 0,
    byte_range := { start := 0, stop := 0 },
    metadata := [], schema_hash := schema_hash, field_metadata := [] }

/-- `SplitMetadata` from `split_generator.rs`. -/
structure SplitMetadata where
  split_id : String
  num_docs : Nat
  size_bytes : Nat
  hotcache_start : Nat
  hotcache_end : Nat
deriving DecidableEq

/-- `create_empty_split` from `split_generator.rs`: writes the serialized
empty hotcache as the sole content of a fresh `<uuid>.store` file and
reports `num_docs = 0`, `hotcache_start = 0`,
`hotcache_end = size_bytes = len(payload)` and a fresh `split_id`.  The two
random UUIDs are passed as parameters. -/
def create_empty_split (schema_hash : Nat) (store_uuid split_uuid : String) :
    DirListing × SplitMetadata :=
  let hotcache_data := (Hotcache.empty schema_hash).serialize
  ([(String.append store_uuid ".store", hotcache_data)],
   { split_id := split_uuid, num_docs := 0, size_bytes := hotcache_data.length,
     hotcache_start := 0, hotcache_end := hotcache_data.length })

/-- A filesystem node: a plain file or a flat directory of files. -/
inductive Node where
  | fileNode (contents : Bytes)
  | dirNode (entries : DirListing)
deriving DecidableEq

/-- A filesystem: path → node. -/
abbrev FS := List (String × Node)

/-- Path lookup (Rust `Path::exists` / `Path::is_dir` / `read_dir`). -/
def lookupFS (fs : FS) (p : String) : Option Node :=
  (fs.find? (fun e => e.1 == p)).map (fun e => e.2)

/-- `QuickwitSplitReader` from `split_reader.rs`. -/
structure QuickwitSplitReaderS where
  split_path : String
  hotcache : Option Hotcache
deriving DecidableEq

/-- `load_hotcache` from `split_reader.rs`, as a function of the split
directory's listing: find the store file, read its footer, parse the
hotcache. -/
def load_hotcache (entries : DirListing) : Except SplitsError Hotcache :=
  match find_store_file entries with
  | .error e => .error e
  | .ok store_file =>
    match read_hotcache_from_footer store_file with
    | .error e => .error e
    | .ok hotcache_data => Hotcache.deserialize hotcache_data

/-- `QuickwitSplitReader::open` from `split_reader.rs`: fails with
`InvalidSplit` when the path does not exist or is not a directory, then
eagerly loads the hotcache. -/
def QuickwitSplitReader_open (fs : FS) (split_path : String) :
    Except SplitsError QuickwitSplitReaderS :=
  match lookupFS fs split_path with
  | none =>
    .error (.InvalidSplit (String.append "Split path does not exist: " split_path))
  | some (.fileNode _) =>
    .error (.InvalidSplit (String.append "Split path is not a directory: " split_path))
  | some (.dirNode entries) =>
    match load_hotcache entries with
    | .error e => .error e
    | .ok hc => .ok { split_path := split_path, hotcache := some hc }

/-- `std::ops::Range<u32>` as used by `get_fast_field_data`; `stop` models
the Rust field `end`. -/
structure RangeU32 where
  start : Nat
  stop : Nat
deriving DecidableEq

/-- Rust unsigned subtraction: panics on underflow in debug builds. -/
def subChecked (a b : Nat) : RustOutcome Nat :=
  if a < b then .panicked "attempt to subtract with overflow" else .ok (a - b)

/-- Rust `u64` addition: panics on overflow in debug builds. -/
def addU64 (a b : Nat) : RustOutcome Nat :=
  if a + b < U64_MOD then .ok (a + b) else .panicked "attempt to add with overflow"

/-- Rust `u64` multiplication: panics on overflow in debug builds. -/
def mulU64 (a b : Nat) : RustOutcome Nat :=
  if a * b < U64_MOD then .ok (a * b) else .panicked "attempt to multiply with overflow"

/-- `calculate_doc_range_bytes` from `split_reader.rs`: 8 bytes per document;
`doc_count = doc_range.end - doc_range.start` is an unchecked `u32`
subtraction, the remaining arithmetic is in `u64`. -/
def calculate_doc_range_bytes (base_range : ByteRange) (doc_range : RangeU32) :
    RustOutcome ByteRange :=
  RustOutcome.bind (subChecked doc_range.stop doc_range.start) fun doc_count =>
  RustOutcome.bind (mulU64 doc_range.start 8) fun start_offset =>
  RustOutcome.bind (mulU64 doc_count 8) fun size =>
  RustOutcome.bind (addU64 base_range.start start_offset) fun s =>
  RustOutcome.bind (addU64 s size) fun e =>
  .ok { start := s, stop := e }

/-- `read_byte_range` from `split_reader.rs`: seek to `range.start` and
read `range.size()` bytes. -/
def read_byte_range (contents : Bytes) (range : ByteRange) : RustOutcome Bytes :=
  RustOutcome.bind (subChecked range.stop range.start) fun size =>
  match readExactAt contents range.start size with
  | some data => .ok data
  | none => .err (.Io "failed to fill whole buffer")

/-- Field lookup in the hotcache's field-metadata map. -/
def lookupFieldMeta (l : List (Bytes × FieldMetadata)) (field : Bytes) :
    Option FieldMetadata :=
  (l.find? (fun e => e.1 == field)).map (fun e => e.2)

/-- `get_fast_field_data` from `split_reader.rs`, as a function of the
reader state and its split directory's listing. -/
def get_fast_field_data (reader : QuickwitSplitReaderS) (entries : DirListing)
    (field : Bytes) (doc_range : RangeU32) : RustOutcome Bytes :=
  match reader.hotcache with
  | none => .err (.InvalidOperation "Hotcache not loaded")
  | some hotcache =>
    match lookupFieldMeta hotcache.field_metadata field with
    | none => .err (.FieldError "Field not found")
    | some field_metadata =>
      match field_metadata.fast_field_range with
      | none => .err (.FieldError "No fast field data for field")
      | some fast_field_range =>
        match find_file_with_extension entries "fast" with
        | .error e => .err e
        | .ok fast_contents =>
          RustOutcome.bind (calculate_doc_range_bytes fast_field_range doc_range)
            fun doc_byte_range => read_byte_range fast_contents doc_byte_range

def I64_MAX : Int := 9223372036854775807

/-- Wrapping into the `i64` range after an increment (two's complement). -/
def wrapI64 (n : Int) : Int := if n ≤ I64_MAX then n else n - 18446744073709551616

/-- `generate_handle` from `lib.rs`: `fetch_add(1, SeqCst)` on a global
`AtomicI64` initialised to 1; returns the previous counter value and the
new counter state. -/
def generate_handle (counter : Int) : Int × Int := (counter, wrapI64 (counter + 1))

/-- The values returned by `n` consecutive `generate_handle` calls starting
from counter state `c`; the process starts at `c = 1`. -/
def consecutive_handles : Nat → Int → List Int
  | 0, _ => []
  | n + 1, c => (generate_handle c).1 :: consecutive_handles n (generate_handle c).2

/-- The per-segment statistics read from a tantivy `SegmentReader`. -/
structure SegmentS where
  id : String
  num_docs : Nat
  num_alive_docs : Nat
  max_doc : Nat
deriving DecidableEq

/-- The index state visible through `reader().searcher()`: its segment
readers. -/
structure IndexS where
  segments : List SegmentS
deriving DecidableEq

/-- `searcher.num_docs()`: total documents over all segment readers. -/
def searcher_num_docs (idx : IndexS) : Nat :=
  (idx.segments.map (fun sr => sr.num_docs)).sum

/-- `estimate_segment_size` from `split_generator.rs`: the documented
heuristic when the segment is found in the searcher, else the 2048-bytes-
per-document fallback. -/
def estimate_segment_size (idx : IndexS) (segment_id : String) : Nat :=
  match idx.segments.find? (fun sr => sr.id == segment_id) with
  | some sr => sr.num_alive_docs * 1024 + sr.num_docs * 512 + sr.max_doc * 256
  | none => searcher_num_docs idx * 2048

/-- UTF-8 bytes of an ASCII string (segment UUIDs are ASCII). -/
def strBytes (s : String) : Bytes := s.data.map Char.toNat

/-- `generate_hotcache` from `split_generator.rs`: builds the hotcache from
`searcher.num_docs()` (cast to `u32`) and `estimate_segment_size`. -/
def generate_hotcache (idx : IndexS) (segment_id : String) : HotcacheInfo :=
  create_hotcache (strBytes segment_id) (searcher_num_docs idx % U32_MOD)
    (estimate_segment_size idx segment_id)

/-- The fixed extension set of `list_segment_files`. -/
def segment_extensions : List String :=
  ["store", "term", "idx", "fast", "pos", "fieldnorm", "del"]

/-- `list_segment_files` from `split_generator.rs`. -/
def list_segment_files (segment_id : String) : List String :=
  segment_extensions.map (fun ext => String.append segment_id (String.append "." ext))

/-- `calculate_actual_segment_size` from `split_generator.rs`: sums the
on-disk sizes of the segment's files (a missing file contributes nothing),
falling back to `estimate_segment_size` when no files are found.  This
function is never called by `generate_hotcache`. -/
def calculate_actual_segment_size (idx : IndexS) (index_dir : DirListing)
    (segment_id : String) : Nat :=
  let total := ((list_segment_files segment_id).map (fun name =>
    match lookupDir index_dir name with
    | some c => c.length
    | none => 0)).sum
  if total > 0 then total else estimate_segment_size idx segment_id

/-- `QuickwitSplitGenerator` from `split_generator.rs`. -/
structure QuickwitSplitGeneratorS where
  index : IndexS
  target_docs_per_split : Nat
deriving DecidableEq

/-- A handle registry (`lib.rs`): a lock-guarded `HashMap<i64, Box<T>>`,
modelled as its entry list (keys unique in any reachable state). -/
abbrev Registry (α : Type) := List (Int × α)

/-- `registry.get(&handle)` under the lock. -/
def Registry.get? {α : Type} (m : Registry α) (handle : Int) : Option α :=
  (List.find? (fun e => e.1 == handle) m).map (fun e => e.2)

/-- `HashMap::remove` on the entry list. -/
def Registry.remove {α : Type} (m : Registry α) (handle : Int) : Registry α :=
  List.filter (fun e => !(e.1 == handle)) m

/-- `unregister_generator` / `unregister_reader` from `lib.rs`: removes the
entry and reports whether a removal occurred. -/
def unregister {α : Type} (m : Registry α) (handle : Int) : Registry α × Bool :=
  (Registry.remove m handle, (Registry.get? m handle).isSome)

/-- A store file whose footer is well formed: serialized empty hotcache
followed by the 8-byte trailer. -/
def goodStore : Bytes :=
  (Hotcache.empty 0).serialize ++ toLE 8 ((Hotcache.empty 0).serialize.length + 8)

/-- A sample filesystem exercising every branch of `open`. -/
def sampleFS : FS :=
  [("plain", Node.fileNode []),
   ("nostore", Node.dirNode [("readme.txt", [1, 2])]),
   ("good", Node.dirNode [("u.store", goodStore)])]

/-- A sample generator registry with two live handles. -/
def sampleGenRegistry : Registry QuickwitSplitGeneratorS :=
  [(1, { index := { segments := [] }, target_docs_per_split := 5 }),
   (2, { index := { segments := [] }, target_docs_per_split := 7 })]

/-- A sample one-segment index for the size-estimation theorems. -/
def sampleIndex : IndexS :=
  { segments := [{ id := "u", num_docs := 2, num_alive_docs := 1, max_doc := 3 }] }

theorem toLE_length (k n : Nat) : (toLE k n).length = k := by
  induction k generalizing n with
  | zero => rfl
  | succ k ih => simp [toLE, ih]

theorem fromLE_toLE (k n : Nat) (h : n < 256 ^ k) : fromLE (toLE k n) = n := by
  induction k generalizing n with
  | zero =>
    simp [toLE, fromLE]
    omega
  | succ k ih =>
    have hdiv : n / 256 < 256 ^ k := by
      have h256 : 256 ^ (k + 1) = 256 ^ k * 256 := pow_succ 256 k
      exact Nat.div_lt_of_lt_mul (by omega)
    simp [toLE, fromLE, ih (n / 256) hdiv]
    omega

theorem pBytesN_append (xs r : Bytes) : pBytesN xs.length (xs ++ r) = some (xs, r) := by
  simp [pBytesN]

theorem pU_append (k n : Nat) (r : Bytes) (h : n < 256 ^ k) :
    pU k (toLE k n ++ r) = some (n, r) := by
  have h1 : pBytesN k (toLE k n ++ r) = some (toLE k n, r) := by
    have h2 := pBytesN_append (toLE k n) r
    rwa [toLE_length] at h2
  simp [pU, h1, fromLE_toLE k n h]

theorem pLenBytes_append (s r : Bytes) (h : s.length < 256 ^ 8) :
    pLenBytes (encBytes s ++ r) = some (s, r) := by
  simp only [encBytes, List.append_assoc]
  simp [pLenBytes, pU_append 8 s.length (s ++ r) h, pBytesN_append]

theorem pPairs_append (l : List (Bytes × Bytes)) (r : Bytes)
    (h : ∀ kv ∈ l, kv.1.length < 256 ^ 8 ∧ kv.2.length < 256 ^ 8) :
    pPairs l.length ((l.map encPair).flatten ++ r) = some (l, r) := by
  induction l with
  | nil => simp [pPairs]
  | cons kv t ih =>
    have hkv := h kv (by simp)
    have ht : ∀ x ∈ t, x.1.length < 256 ^ 8 ∧ x.2.length < 256 ^ 8 := by
      intro x hx
      exact h x (by simp [hx])
    simp only [List.map_cons, List.flatten, List.length_cons, List.append_assoc]
    simp only [encPair, List.append_assoc]
    simp [pPairs, pLenBytes_append kv.1 _ hkv.1, pLenBytes_append kv.2 _ hkv.2, ih ht]

theorem pMap_append (l : List (Bytes × Bytes)) (r : Bytes)
    (hlen : l.length < 256 ^ 8)
    (h : ∀ kv ∈ l, kv.1.length < 256 ^ 8 ∧ kv.2.length < 256 ^ 8) :
    pMap (encMap l ++ r) = some (l, r) := by
  simp only [encMap, List.append_assoc]
  simp [pMap, pU_append 8 l.length _ hlen, pPairs_append l r h]

/-- C2: for every valid (machine-representable) `HotcacheInfo` value,
deserializing its serialization reproduces it exactly:
`from_bytes (to_bytes x) = some x`. -/
theorem hotcache_info_roundtrip (h : HotcacheInfo) (hwf : h.wf) :
    HotcacheInfo.from_bytes h.to_bytes = some h := by
  obtain ⟨h1, h2, h3, h4, h5, h6, h7⟩ := hwf
  have e1 := pLenBytes_append h.split_id (toLE 4 h.num_docs ++ (toLE 8 h.size_bytes ++
    (toLE 8 h.byte_range_start ++ (toLE 8 h.byte_range_end ++ encMap h.metadata)))) h1
  have e2 := pU_append 4 h.num_docs (toLE 8 h.size_bytes ++
    (toLE 8 h.byte_range_start ++ (toLE 8 h.byte_range_end ++ encMap h.metadata))) h2
  have e3 := pU_append 8 h.size_bytes
    (toLE 8 h.byte_range_start ++ (toLE 8 h.byte_range_end ++ encMap h.metadata)) h3
  have e4 := pU_append 8 h.byte_range_start (toLE 8 h.byte_range_end ++ encMap h.metadata) h4
  have e5 := pU_append 8 h.byte_range_end (encMap h.metadata) h5
  have e6 : pMap (encMap h.metadata) = some (h.metadata, []) := by
    have e7 := pMap_append h.metadata [] h6 h7
    simpa using e7
  simp [HotcacheInfo.to_bytes, HotcacheInfo.from_bytes, e1, e2, e3, e4, e5, e6]

/-- Witness for C2: the round trip evaluated at a concrete hotcache value
with a non-trivial metadata map. -/
theorem hotcache_info_roundtrip_witness :
    HotcacheInfo.from_bytes (HotcacheInfo.to_bytes
      { split_id := [97, 98], num_docs := 7, size_bytes := 1000,
        byte_range_start := 3, byte_range_end := 9,
        metadata := [([107], [118]), ([], [120, 121])] }) =
    some { split_id := [97, 98], num_docs := 7, size_bytes := 1000,
           byte_range_start := 3, byte_range_end := 9,
           metadata := [([107], [118]), ([], [120, 121])] } :=
  hotcache_info_roundtrip _ (by decide)

theorem readExactAt_last8 (contents : Bytes) (hge : 8 ≤ contents.length) :
    readExactAt contents (contents.length - 8) 8 =
      some (contents.drop (contents.length - 8)) := by
  have hlen : (contents.drop (contents.length - 8)).length = 8 := by
    simp [List.length_drop]
    omega
  rw [readExactAt, if_pos (by omega)]
  rw [List.take_of_length_le (by omega)]

/-- C4: the footer-reading procedure fails with `InvalidSplit` on files
smaller than 8 bytes and whenever the decoded trailer size `N` satisfies
`N < 8` or `N > file_size`; otherwise it returns exactly the `N - 8` bytes
located at offset `file_size - N`. -/
theorem footer_read_characterization (contents : Bytes) :
    (contents.length < 8 →
      read_hotcache_from_footer contents =
        .error (.InvalidSplit "Store file too small to contain hotcache footer")) ∧
    (8 ≤ contents.length →
      (contents.length < fromLE (contents.drop (contents.length - 8)) ∨
          fromLE (contents.drop (contents.length - 8)) < 8) →
      read_hotcache_from_footer contents =
        .error (.InvalidSplit "Invalid hotcache size in footer")) ∧
    (8 ≤ contents.length →
      8 ≤ fromLE (contents.drop (contents.length - 8)) →
      fromLE (contents.drop (contents.length - 8)) ≤ contents.length →
      read_hotcache_from_footer contents =
        .ok ((contents.drop
              (contents.length - fromLE (contents.drop (contents.length - 8)))).take
          (fromLE (contents.drop (contents.length - 8)) - 8))) := by
  refine ⟨?_, ?_, ?_⟩
  · intro h
    simp [read_hotcache_from_footer, h]
  · intro hge hbad
    rw [read_hotcache_from_footer]
    simp only [if_neg (by omega : ¬contents.length < 8), readExactAt_last8 contents hge]
    rw [if_pos hbad]
  · intro hge hn1 hn2
    rw [read_hotcache_from_footer]
    simp only [if_neg (by omega : ¬contents.length < 8), readExactAt_last8 contents hge]
    rw [if_neg (by omega)]
    rw [readExactAt, if_pos (by omega)]

/-- Witness for C4: all three cases of the footer-reading characterization
evaluated at concrete store files.  The third file is
`[1, 2, 3] ++ toLE 8 11`, whose trailer decodes to `N = 11`, so the payload
is the 3 bytes at offset `11 - 11 = 0`. -/
theorem footer_read_characterization_witness :
    read_hotcache_from_footer [0, 1, 2] =
      .error (.InvalidSplit "Store file too small to contain hotcache footer") ∧
    read_hotcache_from_footer [0, 0, 0, 0, 0, 0, 0, 0] =
      .error (.InvalidSplit "Invalid hotcache size in footer") ∧
    read_hotcache_from_footer [1, 2, 3, 11, 0, 0, 0, 0, 0, 0, 0] = .ok [1, 2, 3] := by
  refine ⟨(footer_read_characterization [0, 1, 2]).1 (by decide), ?_, ?_⟩
  · have h := (footer_read_characterization [0, 0, 0, 0, 0, 0, 0, 0]).2.1
      (by decide) (by decide)
    simpa using h
  · have h := (footer_read_characterization [1, 2, 3, 11, 0, 0, 0, 0, 0, 0, 0]).2.2
      (by decide) (by decide) (by decide)
    simpa using h

/-- C1: evidence that the footer round trip is broken in the code.  On a
store file of original size `S = 3` the embedding step does report
`hotcache_start = 3 = S` and `hotcache_end = 47 = S + len(P)` for the
44-byte payload `P`, but it appends only the payload — no 8-byte trailer —
so the reader's footer procedure decodes the payload's own last 8 bytes
(zero) as the footer size and fails with `InvalidSplit` instead of
reproducing `P`. -/
theorem embed_hotcache_writes_no_trailer :
    (HotcacheInfo.new [] 0 0).to_bytes.length = 44 ∧
    embed_hotcache [("s.store", [10, 20, 30])] (HotcacheInfo.new [] 0 0) =
      .ok ([("s.store", [10, 20, 30] ++ (HotcacheInfo.new [] 0 0).to_bytes)], 3, 47) ∧
    read_hotcache_from_footer ([10, 20, 30] ++ (HotcacheInfo.new [] 0 0).to_bytes) =
      .error (.InvalidSplit "Invalid hotcache size in footer") ∧
    read_hotcache_from_footer ([10, 20, 30] ++ (HotcacheInfo.new [] 0 0).to_bytes) ≠
      .ok (HotcacheInfo.new [] 0 0).to_bytes := by
  refine ⟨by rfl, by rfl, by rfl, ?_⟩
  intro h
  rw [show read_hotcache_from_footer ([10, 20, 30] ++ (HotcacheInfo.new [] 0 0).to_bytes) =
    .error (.InvalidSplit "Invalid hotcache size in footer") from rfl] at h
  exact Except.noConfusion h

/-- C3: for a zero-segment index `create_empty_split` does report
`num_docs = 0`, `hotcache_start = 0`, `hotcache_end = size_bytes` and the
freshly generated `split_id`, but the single `.store` file it writes
contains only the hotcache payload — no 8-byte trailer — so the reader's
footer procedure rejects it with `InvalidSplit` instead of parsing it
(evaluated at schema hash 0 and concrete UUIDs). -/
theorem empty_split_footer_unparseable :
    (create_empty_split 0 "u" "v").2.num_docs = 0 ∧
    (create_empty_split 0 "u" "v").2.hotcache_start = 0 ∧
    (create_empty_split 0 "u" "v").2.hotcache_end =
      (create_empty_split 0 "u" "v").2.size_bytes ∧
    (create_empty_split 0 "u" "v").2.split_id = "v" ∧
    (create_empty_split 0 "u" "v").1 = [("u.store", (Hotcache.empty 0).serialize)] ∧
    read_hotcache_from_footer ((Hotcache.empty 0).serialize) =
      .error (.InvalidSplit "Invalid hotcache size in footer") :=
  ⟨rfl, rfl, rfl, rfl, rfl, rfl⟩

/-- C5: opening a nonexistent path, a non-directory path, or a directory
without a `.store` file each fail with `InvalidSplit`, and every successful
open has the hotcache loaded. -/
theorem open_failures_and_eager_load (fs : FS) (p : String) :
    (lookupFS fs p = none →
      ∃ m, QuickwitSplitReader_open fs p = .error (.InvalidSplit m)) ∧
    (∀ c, lookupFS fs p = some (.fileNode c) →
      ∃ m, QuickwitSplitReader_open fs p = .error (.InvalidSplit m)) ∧
    (∀ entries, lookupFS fs p = some (.dirNode entries) →
      entries.find? (fun e => endsWithStr e.1 ".store") = none →
      ∃ m, QuickwitSplitReader_open fs p = .error (.InvalidSplit m)) ∧
    (∀ r, QuickwitSplitReader_open fs p = .ok r → r.hotcache.isSome) := by
  refine ⟨?_, ?_, ?_, ?_⟩
  · intro h
    refine ⟨String.append "Split path does not exist: " p, ?_⟩
    simp [QuickwitSplitReader_open, h]
  · intro c h
    refine ⟨String.append "Split path is not a directory: " p, ?_⟩
    simp [QuickwitSplitReader_open, h]
  · intro entries h hns
    refine ⟨"No store file found in split directory", ?_⟩
    simp [QuickwitSplitReader_open, h, load_hotcache, find_store_file, hns]
  · intro r hr
    unfold QuickwitSplitReader_open at hr
    cases hl : lookupFS fs p with
    | none => rw [hl] at hr; simp at hr
    | some node =>
      cases node with
      | fileNode c => rw [hl] at hr; simp at hr
      | dirNode entries =>
        rw [hl] at hr
        dsimp only at hr
        cases hlh : load_hotcache entries with
        | error e => rw [hlh] at hr; simp at hr
        | ok hc =>
          rw [hlh] at hr
          dsimp only at hr
          injection hr with h2
          rw [← h2]
          rfl

/-- Witness for C5: all four cases of `open` on a concrete filesystem,
including a successful open whose hotcache is loaded. -/
theorem open_failures_and_eager_load_witness :
    (∃ m, QuickwitSplitReader_open sampleFS "missing" = .error (.InvalidSplit m)) ∧
    (∃ m, QuickwitSplitReader_open sampleFS "plain" = .error (.InvalidSplit m)) ∧
    (∃ m, QuickwitSplitReader_open sampleFS "nostore" = .error (.InvalidSplit m)) ∧
    QuickwitSplitReader_open sampleFS "good" =
      .ok { split_path := "good", hotcache := some (Hotcache.empty 0) } ∧
    ({ split_path := "good", hotcache := some (Hotcache.empty 0) } :
      QuickwitSplitReaderS).hotcache.isSome := by
  have hgood : QuickwitSplitReader_open sampleFS "good" =
      .ok { split_path := "good", hotcache := some (Hotcache.empty 0) } := by rfl
  exact ⟨(open_failures_and_eager_load sampleFS "missing").1 (by rfl),
         (open_failures_and_eager_load sampleFS "plain").2.1 [] (by rfl),
         (open_failures_and_eager_load sampleFS "nostore").2.2.1
           [("readme.txt", [1, 2])] (by rfl) (by rfl),
         hgood,
         (open_failures_and_eager_load sampleFS "good").2.2.2 _ hgood⟩

/-- C6: for machine-representable inputs with `start ≤ end` and no `u64`
overflow, `calculate_doc_range_bytes` returns exactly
`base.start + doc_range.start*8 .. base.start + doc_range.end*8`
(stride 8 bytes per document). -/
theorem doc_range_byte_math (base_range : ByteRange) (doc_range : RangeU32)
    (h1 : doc_range.start ≤ doc_range.stop) (h2 : doc_range.stop < U32_MOD)
    (h3 : base_range.start + doc_range.stop * 8 < U64_MOD) :
    calculate_doc_range_bytes base_range doc_range =
      .ok { start := base_range.start + doc_range.start * 8,
            stop := base_range.start + doc_range.stop * 8 } := by
  have h2n : doc_range.stop < 4294967296 := h2
  have h3n : base_range.start + doc_range.stop * 8 < 18446744073709551616 := h3
  have e1 : subChecked doc_range.stop doc_range.start =
      .ok (doc_range.stop - doc_range.start) := by
    rw [subChecked, if_neg (by omega)]
  have e2 : mulU64 doc_range.start 8 = .ok (doc_range.start * 8) := by
    rw [mulU64, if_pos (by simp only [U64_MOD]; omega)]
  have e3 : mulU64 (doc_range.stop - doc_range.start) 8 =
      .ok ((doc_range.stop - doc_range.start) * 8) := by
    rw [mulU64, if_pos (by simp only [U64_MOD]; omega)]
  have e4 : addU64 base_range.start (doc_range.start * 8) =
      .ok (base_range.start + doc_range.start * 8) := by
    rw [addU64, if_pos (by simp only [U64_MOD]; omega)]
  have e5 : addU64 (base_range.start + doc_range.start * 8)
      ((doc_range.stop - doc_range.start) * 8) =
      .ok (base_range.start + doc_range.stop * 8) := by
    rw [addU64, if_pos (by simp only [U64_MOD]; omega)]
    congr 1
    omega
  rw [calculate_doc_range_bytes, e1]
  simp only [RustOutcome.bind]
  rw [e2]
  simp only [RustOutcome.bind]
  rw [e3]
  simp only [RustOutcome.bind]
  rw [e4]
  simp only [RustOutcome.bind]
  rw [e5]

/-- Witness for C6: the spec's concrete example, `base = {1000, 2000}`,
`doc_range = 10..15` ⇒ `{1080, 1120}`. -/
theorem doc_range_byte_math_witness :
    calculate_doc_range_bytes { start := 1000, stop := 2000 } { start := 10, stop := 15 } =
      .ok { start := 1080, stop := 1120 } :=
  doc_range_byte_math { start := 1000, stop := 2000 } { start := 10, stop := 15 }
    (by decide) (by decide) (by decide)

/-- C7: the reader's `get_fast_field_data` does not fail with
`InvalidOperation` on a reversed document range: on a field with
`fast_field_range = {1000, 2000}` and `doc_range = 5..3`, the unchecked
`u32` subtraction `end - start` in `calculate_doc_range_bytes` underflows,
so the call panics (debug builds; it wraps around in release builds)
instead of returning the documented error. -/
theorem fast_field_reversed_range_panics :
    get_fast_field_data
      { split_path := "p",
        hotcache := some { split_id := [], num_docs := 0, size_bytes := 0,
                           byte_range := { start := 0, stop := 0 }, metadata := [],
                           schema_hash := 0,
                           field_metadata := [([102],
                             { posting_range := none,
                               fast_field_range := some { start := 1000, stop := 2000 } })] } }
      [("u.fast", [])] [102] { start := 5, stop := 3 } =
      .panicked "attempt to subtract with overflow" := by
  rfl

theorem consecutive_handles_formula (n : Nat) :
    ∀ s : Int, 0 < s → s + n ≤ 9223372036854775808 →
      consecutive_handles n s = (List.range n).map (fun k : Nat => s + (k : Int)) := by
  induction n with
  | zero => intro s _ _; rfl
  | succ n ih =>
    intro s hs hle
    have hw : wrapI64 (s + 1) = s + 1 ∨ n = 0 := by
      rcases Nat.eq_zero_or_pos n with hn | hn
      · exact Or.inr hn
      · refine Or.inl ?_
        rw [wrapI64, if_pos]
        have hcast : (1 : Int) ≤ (n : Int) := by exact_mod_cast hn
        have : s + (n : Int) + 1 ≤ 9223372036854775808 := by push_cast at hle; omega
        simp only [I64_MAX]
        omega
    rcases hw with hw | hn
    · have ihh := ih (s + 1) (by omega) (by push_cast at hle ⊢; omega)
      rw [consecutive_handles]
      simp only [generate_handle]
      rw [hw, ihh, List.range_succ_eq_map]
      simp only [List.map_cons, List.map_map, Nat.cast_zero, add_zero]
      refine congrArg (List.cons s) ?_
      apply List.map_congr_left
      intro k _
      simp only [Function.comp_apply]
      push_cast
      ring
    · subst hn
      simp [consecutive_handles, generate_handle, List.range_succ]

/-- C8: `n` consecutive `generate_handle` calls from the initial counter
state 1 return exactly `1, 2, …, n`: pairwise strictly increasing — hence
distinct and never reissued for the process lifetime — and strictly
positive (for any `n` within the `i64` range; after `2^63 - 1` calls the
counter would wrap). -/
theorem handle_generation (n : Nat) (hn : n ≤ 9223372036854775807) :
    consecutive_handles n 1 = (List.range n).map (fun k : Nat => 1 + (k : Int)) ∧
    (consecutive_handles n 1).Pairwise (fun a b => a < b) ∧
    ∀ x ∈ consecutive_handles n 1, 0 < x := by
  have hf := consecutive_handles_formula n 1 (by omega) (by omega)
  refine ⟨hf, ?_, ?_⟩
  · rw [hf, List.pairwise_map]
    exact (List.pairwise_lt_range n).imp (fun hab => by omega)
  · intro x hx
    rw [hf] at hx
    simp only [List.mem_map, List.mem_range] at hx
    obtain ⟨k, _, rfl⟩ := hx
    omega

/-- Witness for C8: four consecutive calls yield `[1, 2, 3, 4]`. -/
theorem handle_generation_witness :
    consecutive_handles 4 1 = [1, 2, 3, 4] ∧
    (consecutive_handles 4 1).Pairwise (fun a b => a < b) ∧
    ∀ x ∈ consecutive_handles 4 1, 0 < x := by
  have h := handle_generation 4 (by decide)
  exact ⟨by rfl, h.2.1, h.2.2⟩

/-- C9 counterexample: a segment whose files are locatable on disk (a
100-byte `u.store`), yet `generate_hotcache` records the heuristic
estimate `1·1024 + 1·512 + 1·256 = 1792`, not the 100-byte actual file
size that `calculate_actual_segment_size` would have computed — the
actual-file-size path has no priority because it is never invoked. -/
theorem size_estimate_ignores_actual_files :
    (generate_hotcache
      { segments := [{ id := "u", num_docs := 1, num_alive_docs := 1, max_doc := 1 }] }
      "u").size_bytes = 1792 ∧
    calculate_actual_segment_size
      { segments := [{ id := "u", num_docs := 1, num_alive_docs := 1, max_doc := 1 }] }
      [("u.store", List.replicate 100 0)] "u" = 100 ∧
    (generate_hotcache
      { segments := [{ id := "u", num_docs := 1, num_alive_docs := 1, max_doc := 1 }] }
      "u").size_bytes ≠
      calculate_actual_segment_size
        { segments := [{ id := "u", num_docs := 1, num_alive_docs := 1, max_doc := 1 }] }
        [("u.store", List.replicate 100 0)] "u" := by
  refine ⟨by rfl, by rfl, ?_⟩
  intro h
  rw [show (generate_hotcache
      { segments := [{ id := "u", num_docs := 1, num_alive_docs := 1, max_doc := 1 }] }
      "u").size_bytes = 1792 from rfl] at h
  rw [show calculate_actual_segment_size
      { segments := [{ id := "u", num_docs := 1, num_alive_docs := 1, max_doc := 1 }] }
      [("u.store", List.replicate 100 0)] "u" = 100 from rfl] at h
  omega

/-- C9 (amended): during generation the hotcache size estimate is computed
by `estimate_segment_size` alone — the heuristic
`1024·alive_docs + 512·num_docs + 256·max_doc` when the segment is found
in the searcher, else the fallback `2048·total_docs`; actual file sizes
are never consulted. -/
theorem size_estimate_policy (idx : IndexS) (segment_id : String) :
    (generate_hotcache idx segment_id).size_bytes = estimate_segment_size idx segment_id ∧
    (∀ sr, idx.segments.find? (fun s => s.id == segment_id) = some sr →
      estimate_segment_size idx segment_id =
        sr.num_alive_docs * 1024 + sr.num_docs * 512 + sr.max_doc * 256) ∧
    (idx.segments.find? (fun s => s.id == segment_id) = none →
      estimate_segment_size idx segment_id = searcher_num_docs idx * 2048) := by
  refine ⟨rfl, ?_, ?_⟩
  · intro sr h
    rw [estimate_segment_size, h]
  · intro h
    rw [estimate_segment_size, h]

/-- Witness for C9: the amended policy evaluated on a concrete index, for
a segment present in the searcher and for an unknown segment id. -/
theorem size_estimate_policy_witness :
    (generate_hotcache sampleIndex "u").size_bytes = estimate_segment_size sampleIndex "u" ∧
    estimate_segment_size sampleIndex "u" = 1 * 1024 + 2 * 512 + 3 * 256 ∧
    estimate_segment_size sampleIndex "w" = searcher_num_docs sampleIndex * 2048 := by
  refine ⟨(size_estimate_policy sampleIndex "u").1, ?_, ?_⟩
  · exact (size_estimate_policy sampleIndex "u").2.1
      { id := "u", num_docs := 2, num_alive_docs := 1, max_doc := 3 } (by rfl)
  · exact (size_estimate_policy sampleIndex "w").2.2 (by rfl)

/-- C10: removing one handle from a registry (`unregister_generator` /
`unregister_reader`) leaves every other handle's entry — its presence and
its associated object — unchanged, and removes only the entry for the
given handle. -/
theorem unregister_frame {α : Type} (m : Registry α) (h h' : Int) (hne : h' ≠ h) :
    Registry.get? (unregister m h).1 h' = Registry.get? m h' ∧
    Registry.get? (unregister m h).1 h = none := by
  constructor
  · show Registry.get? (Registry.remove m h) h' = Registry.get? m h'
    induction m with
    | nil => rfl
    | cons e t ih =>
      rcases e with ⟨k, a⟩
      simp only [Registry.remove, List.filter_cons] at ih ⊢
      by_cases hk : k = h
      · rw [if_neg (by simp [hk])]
        rw [ih]
        simp only [Registry.get?]
        rw [List.find?_cons_of_neg _ (by simp [hk]; exact fun hh => hne hh.symm)]
      · rw [if_pos (by simp [hk])]
        by_cases hk' : k = h'
        · simp only [Registry.get?]
          rw [List.find?_cons_of_pos _ (by simp [hk']),
              List.find?_cons_of_pos _ (by simp [hk'])]
        · simp only [Registry.get?]
          rw [List.find?_cons_of_neg _ (by simp [hk']),
              List.find?_cons_of_neg _ (by simp [hk'])]
          exact ih
  · show Registry.get? (Registry.remove m h) h = none
    induction m with
    | nil => rfl
    | cons e t ih =>
      rcases e with ⟨k, a⟩
      simp only [Registry.remove, List.filter_cons] at ih ⊢
      by_cases hk : k = h
      · rw [if_neg (by simp [hk])]
        exact ih
      · rw [if_pos (by simp [hk])]
        simp only [Registry.get?]
        rw [List.find?_cons_of_neg _ (by simp [hk])]
        exact ih

/-- Witness for C10 on the generator registry: unregistering handle 1
leaves handle 2's generator untouched and removes handle 1's entry. -/
theorem unregister_frame_witness :
    Registry.get? (unregister sampleGenRegistry 1).1 2 =
      Registry.get? sampleGenRegistry 2 ∧
    Registry.get? (unregister sampleGenRegistry 1).1 1 = none ∧
    Registry.get? sampleGenRegistry 2 =
      some { index := { segments := [] }, target_docs_per_split := 7 } := by
  refine ⟨(unregister_frame sampleGenRegistry 1 2 (by decide)).1,
          (unregister_frame sampleGenRegistry 1 2 (by decide)).2, by rfl⟩

end QSplit
